import Mathlib

/-!
Verification of the `EmitterSet` / `LooseEmitterSet` data model of
`deepsmlm/generic/emitter.py`.

Floating-point tensors are shallowly embedded as lists of `Fl`, a rational
number extended with a `nan` element; `nan` propagates through arithmetic and
makes every comparison false, which is the only float behaviour the verified
code exercises (no infinities arise on the inputs covered by the theorems).
Integer tensors (`frame_ix`, `id`) are lists of `ℤ`.  A tensor of shape
N x 3 is a list of length-3 rows.  Exceptions raised by the Python code are
modelled with `Except EmErr`.
-/

/-- A float value: either NaN or an exact rational. -/
inductive Fl where
  | nan : Fl
  | q : ℚ → Fl
deriving DecidableEq

/-- Float subtraction; NaN propagates. -/
def Fl.sub : Fl → Fl → Fl
  | Fl.q a, Fl.q b => Fl.q (a - b)
  | _, _ => Fl.nan

/-- Float multiplication; NaN propagates. -/
def Fl.mul : Fl → Fl → Fl
  | Fl.q a, Fl.q b => Fl.q (a * b)
  | _, _ => Fl.nan

/-- Float division; NaN propagates.  Only used with nonzero divisors:
division by zero would be an infinity, which `Fl` does not model, and every
theorem touching division carries a nonzero hypothesis. -/
def Fl.div : Fl → Fl → Fl
  | Fl.q a, Fl.q b => Fl.q (a / b)
  | _, _ => Fl.nan

/-- Float reciprocal (`1 / tensor`); NaN propagates.  Only used with nonzero
arguments, for the same reason as `Fl.div`. -/
def Fl.recip : Fl → Fl
  | Fl.q a => Fl.q a⁻¹
  | Fl.nan => Fl.nan

/-- Float absolute value; NaN propagates. -/
def Fl.abs : Fl → Fl
  | Fl.q a => Fl.q |a|
  | Fl.nan => Fl.nan

/-- Float strict comparison; any comparison involving NaN is false. -/
def Fl.lt : Fl → Fl → Bool
  | Fl.q a, Fl.q b => decide (a < b)
  | _, _ => false

/-- `torch.isnan` on a single value. -/
def Fl.isNan : Fl → Bool
  | Fl.nan => true
  | Fl.q _ => false

/-- Float equality as computed by `torch.eq`: NaN compares unequal to
everything, including itself. -/
def flEq : Fl → Fl → Bool
  | Fl.q a, Fl.q b => decide (a = b)
  | _, _ => false

/-- `x != x` is the only Fl with `flEq x x = false` being `nan`; a value that
is a rational and nonzero. -/
def flNonzeroRat : Fl → Bool
  | Fl.q a => decide (a ≠ 0)
  | Fl.nan => false

/-- The coordinate unit tag.  The source stores an arbitrary string; the
claims only distinguish the two supported units, unset, and an unsupported
value, which `bogus` stands for. -/
inductive XYUnit where
  | px : XYUnit
  | nm : XYUnit
  | bogus : XYUnit
deriving DecidableEq

/-- Exceptions raised by the modelled Python code. -/
inductive EmErr where
  /-- `_sanity_check`: tensors differ in the size of dimension 0. -/
  | shapeInvariant : EmErr
  /-- `_sanity_check`: the xy unit is set but not one of px / nm. -/
  | badUnit : EmErr
  /-- `ValueError`: unit conversion requested without a pixel size. -/
  | valueError : EmErr
  /-- `IndexError` raised explicitly by `__getitem__`, carrying the
  offending index and the container length. -/
  | boundsPy : ℤ → ℕ → EmErr
  /-- `IndexError` raised by torch tensor indexing, carrying the offending
  index and the tensor's dimension-0 size. -/
  | boundsTorch : ℤ → ℕ → EmErr
  /-- `DeprecationWarning` raised by the `num_emitter` property. -/
  | deprecation : EmErr
  /-- Comparing a tensor against `None`: either `torch.eq` rejects the
  operand or the comparison yields a plain bool without `.all`; an exception
  escapes in both cases. -/
  | noneCompare : EmErr
  /-- Elementwise operation on tensors with non-broadcastable shapes. -/
  | broadcast : EmErr
  /-- Shape mismatch inside the (spec-modelled) almost-equal helper. -/
  | shapeMismatch : EmErr
  /-- `torch.cat` of an empty list of tensors. -/
  | emptyCat : EmErr
deriving DecidableEq

/-- Decidable equality of `Except` results, for evaluating the models on
concrete inputs. -/
instance {e a : Type} [DecidableEq e] [DecidableEq a] : DecidableEq (Except e a) :=
  fun x y =>
    match x, y with
    | .ok u, .ok v =>
      if h : u = v then isTrue (by simp [h]) else isFalse (by simp [h])
    | .error u, .error v =>
      if h : u = v then isTrue (by simp [h]) else isFalse (by simp [h])
    | .ok _, .error _ => isFalse (by simp)
    | .error _, .ok _ => isFalse (by simp)

/-- The attribute container (`EmitterSet`), after construction: nine
N-aligned attribute arrays plus the shared unit and pixel size. -/
@[ext]
structure EmitterSet where
  xyz : List (List Fl)
  phot : List Fl
  frame_ix : List ℤ
  id : List ℤ
  prob : List Fl
  bg : List Fl
  xyz_cr : List (List Fl)
  phot_cr : List Fl
  bg_cr : List Fl
  xy_unit : Option XYUnit
  px_size : Option (List Fl)
deriving DecidableEq

/-- `len(self)`: the number of rows of the xyz container. -/
def lenEm (es : EmitterSet) : ℕ := es.xyz.length

/-- `EmitterSet.eq_precision = 1E-8`. -/
def eqPrecision : ℚ := 1 / 100000000

/-- Elementwise closeness of two float values within `eqPrecision`
(`|a - b| < 1e-8`); false whenever NaN is involved. -/
def flClose (a b : Fl) : Bool := Fl.lt (Fl.abs (Fl.sub a b)) (Fl.q eqPrecision)

/-- Modelled from the spec: `tutil.tens_almeq` on 1-D float tensors —
"element-wise close within a fixed absolute tolerance (1e-8)".  The helper's
body is not in src/; elementwise comparison requires matching shapes, which
the modelled version enforces with an error. -/
def almeqV (a b : List Fl) : Except EmErr Bool :=
  if a.length = b.length then .ok ((a.zip b).all (fun p => flClose p.1 p.2))
  else .error .shapeMismatch

/-- Modelled from the spec: `tutil.tens_almeq` on N x 3 float tensors. -/
def almeqM (a b : List (List Fl)) : Except EmErr Bool :=
  if (a.length = b.length ∧ (a.zip b).all (fun p => p.1.length = p.2.length)) then
    .ok ((a.zip b).all (fun p => (p.1.zip p.2).all (fun r => flClose r.1 r.2)))
  else .error .shapeMismatch

/-- Modelled from the spec: `tutil.tens_almeq` on integer tensors — the
difference of equal integers is 0 < 1e-8, so this is elementwise equality. -/
def almeqZ (a b : List ℤ) : Except EmErr Bool :=
  if a.length = b.length then .ok ((a.zip b).all (fun p => decide (p.1 = p.2)))
  else .error .shapeMismatch

/-- `torch.isnan(v).all()` on a 1-D tensor (true on an empty tensor). -/
def allNanV (v : List Fl) : Bool := v.all Fl.isNan

/-- `torch.isnan(m).all()` on an N x 3 tensor. -/
def allNanM (m : List (List Fl)) : Bool := m.all (fun r => r.all Fl.isNan)

/-- `(p == q).all()` for two 1-D tensors, with torch broadcasting: matching
lengths compare elementwise, a length-1 tensor broadcasts, anything else
raises. -/
def tensorEqAll (p q : List Fl) : Except EmErr Bool :=
  if p.length = q.length then .ok ((p.zip q).all (fun r => flEq r.1 r.2))
  else if h : p.length = 1 then .ok (q.all (fun y => flEq (p.get ⟨0, by omega⟩) y))
  else if h2 : q.length = 1 then .ok (p.all (fun x => flEq x (q.get ⟨0, by omega⟩)))
  else .error .broadcast

/-- `EmitterSet.eq_attr` (lines 364-386): metadata comparison.  When the
receiver's pixel size is unset the function returns early without looking at
the unit; when only the receiver's pixel size is set, `px_size == None`
escapes as an exception. -/
def eq_attr (a b : EmitterSet) : Except EmErr Bool :=
  match a.px_size with
  | none => match b.px_size with
    | none => .ok true
    | some _ => .ok false
  | some p => match b.px_size with
    | none => .error .noneCompare
    | some r => do
      let e ← tensorEqAll p r
      if ¬ e then return false
      else if ¬ (a.xy_unit = b.xy_unit) then return false
      else return true

/-- The attribute checks of `EmitterSet.__eq__` (lines 318-359), up to but
not including the final `eq_attr` call.  Note the source bug: in the
not-all-NaN branches for `xyz_cr`, `phot_cr` and `bg_cr` the code compares
`self.bg` against `other.bg` instead of the respective field. -/
def eqCore (a b : EmitterSet) : Except EmErr Bool := do
  let t1 ← almeqM a.xyz b.xyz
  if ¬ t1 then return false
  let t2 ← almeqZ a.frame_ix b.frame_ix
  if ¬ t2 then return false
  let t3 ← almeqV a.phot b.phot
  if ¬ t3 then return false
  let t4 ← almeqV a.prob b.prob
  if ¬ t4 then return false
  if ¬ (a.xy_unit = b.xy_unit) then return false
  if allNanV a.bg then
    if ¬ allNanV b.bg then return false
  else
    let t5 ← almeqV a.bg b.bg
    if ¬ t5 then return false
  if allNanM a.xyz_cr then
    if ¬ allNanM b.xyz_cr then return false
  else
    let t6 ← almeqV a.bg b.bg
    if ¬ t6 then return false
  if allNanV a.phot_cr then
    if ¬ allNanV b.phot_cr then return false
  else
    let t7 ← almeqV a.bg b.bg
    if ¬ t7 then return false
  if allNanV a.bg_cr then
    if ¬ allNanV b.bg_cr then return false
  else
    let t8 ← almeqV a.bg b.bg
    if ¬ t8 then return false
  return true

/-- `EmitterSet.__eq__` (lines 308-362): the attribute checks with early
`return False`, then a call to `eq_attr` whose return value is discarded
(but whose exception, if any, escapes), then `return True`. -/
def eqEm (a b : EmitterSet) : Except EmErr Bool := do
  let r ← eqCore a b
  if r then
    let _ ← eq_attr a b
    return true
  else
    return false

/-- The 2-D-to-3-D padding of `_set_typed` (line 109): a tensor whose second
dimension is not 3 gets a zero column appended. -/
def padXyz (xyz : List (List Fl)) : List (List Fl) :=
  if (xyz.head?.getD []).length = 3 then xyz
  else xyz.map (fun r => r ++ [Fl.q 0])

/-- Modelled from the spec: `tutil.same_shape_tensor(0, ...)` — the given
tensors all share the size of dimension 0.  The helper's body is not in
src/; the argument list is the source's (line 258) and omits `prob`, even
though the accompanying error message names it. -/
def same_shape0 (es : EmitterSet) : Bool :=
  [es.phot.length, es.frame_ix.length, es.id.length, es.bg.length,
   es.xyz_cr.length, es.phot_cr.length, es.bg_cr.length].all
    (fun n => n = es.xyz.length)

/-- `EmitterSet._sanity_check` (lines 248-278) with default
`check_uniqueness=False`.  The 1-D check (`tutil.same_dim_tensor`) is
vacuous in this embedding because 1-D tensors are lists by type; the
unset-unit case only warns. -/
def sanityCheck (es : EmitterSet) : Except EmErr Unit :=
  if ¬ same_shape0 es then .error .shapeInvariant
  else if 0 < lenEm es then
    match es.xy_unit with
    | none => .ok ()
    | some u => if u = XYUnit.px ∨ u = XYUnit.nm then .ok () else .error .badUnit
  else .ok ()

/-- `EmitterSet.__init__` / `_set_typed` (lines 32-138).  Dtype checks are
enforced by the embedding's types.  Defaults are sized like the tensors the
source sizes them from (`ones_like(frame_ix)` etc.); with zero rows every
attribute degenerates to a canonical empty tensor.  The sanity check runs
only when requested. -/
def mkEmitterSet (xyz : List (List Fl)) (phot : List Fl) (frame_ix : List ℤ)
    (id : Option (List ℤ)) (prob : Option (List Fl)) (bg : Option (List Fl))
    (xyz_cr : Option (List (List Fl))) (phot_cr : Option (List Fl))
    (bg_cr : Option (List Fl)) (sanity : Bool) (xy_unit : Option XYUnit)
    (px_size : Option (List Fl)) : Except EmErr EmitterSet :=
  let xyzP := padXyz xyz
  let es : EmitterSet :=
    if xyzP.length ≠ 0 then
      let bgV := bg.getD (List.replicate frame_ix.length Fl.nan)
      { xyz := xyzP, phot := phot, frame_ix := frame_ix,
        id := id.getD (List.replicate frame_ix.length (-1)),
        prob := prob.getD (List.replicate frame_ix.length (Fl.q 1)),
        bg := bgV,
        xyz_cr := xyz_cr.getD (xyzP.map (fun r => r.map (fun _ => Fl.nan))),
        phot_cr := phot_cr.getD (phot.map (fun _ => Fl.nan)),
        bg_cr := bg_cr.getD (bgV.map (fun _ => Fl.nan)),
        xy_unit := xy_unit, px_size := px_size }
    else
      { xyz := [], phot := [], frame_ix := [], id := [], prob := [], bg := [],
        xyz_cr := [], phot_cr := [], bg_cr := [],
        xy_unit := xy_unit, px_size := px_size }
  if sanity then (sanityCheck es).map (fun _ => es) else .ok es

/-- Torch integer indexing of one row, with Python negative-index handling:
in-range indices (including negative ones down to `-len`) select a row,
anything else raises an `IndexError` naming the index and the size. -/
def torchIndex {α : Type} (xs : List α) (i : ℤ) : Except EmErr α :=
  let j : ℤ := if i < 0 then (xs.length : ℤ) + i else i
  if 0 ≤ j then
    match xs.get? j.toNat with
    | some a => .ok a
    | none => .error (.boundsTorch i xs.length)
  else .error (.boundsTorch i xs.length)

/-- Torch indexing with a list of integer indices (`xs[[i, j, ...]]`). -/
def torchSelect {α : Type} (xs : List α) : List ℤ → Except EmErr (List α)
  | [] => .ok []
  | i :: rest => do
    let a ← torchIndex xs i
    let as ← torchSelect xs rest
    .ok (a :: as)

/-- `EmitterSet.get_subset` (lines 538-558) on a list of integer indices:
selects the rows of every attribute and rebuilds the container through the
constructor with `sanity_check=False`. -/
def getSubsetList (es : EmitterSet) (ix : List ℤ) : Except EmErr EmitterSet := do
  let xyz ← torchSelect es.xyz ix
  let phot ← torchSelect es.phot ix
  let frame ← torchSelect es.frame_ix ix
  let idv ← torchSelect es.id ix
  let prob ← torchSelect es.prob ix
  let bg ← torchSelect es.bg ix
  let xcr ← torchSelect es.xyz_cr ix
  let pcr ← torchSelect es.phot_cr ix
  let bcr ← torchSelect es.bg_cr ix
  mkEmitterSet xyz phot frame (some idv) (some prob) (some bg) (some xcr)
    (some pcr) (some bcr) false es.xy_unit es.px_size

/-- `EmitterSet.__getitem__` (lines 412-426) on an integer: an explicit
`IndexError` carrying the index and the length when `item >= len(self)`,
otherwise `get_subset([item])` (torch handles negative indices). -/
def getItemInt (es : EmitterSet) (i : ℤ) : Except EmErr EmitterSet :=
  if (lenEm es : ℤ) ≤ i then .error (.boundsPy i (lenEm es))
  else getSubsetList es [i]

/-- Torch boolean-mask selection of rows; the mask length must match the
dimension being indexed. -/
def maskSelect {α : Type} (xs : List α) (m : List Bool) : Except EmErr (List α) :=
  if xs.length = m.length then
    .ok ((xs.zip m).filterMap (fun p => if p.2 then some p.1 else none))
  else .error .broadcast

/-- `EmitterSet.get_subset` reached with a boolean mask tensor: the
`numel() == 1` "single element support" branch (line 550) converts a
1-element mask to the integer index `int(mask)` — 0 or 1 — before torch can
interpret it as a mask; longer masks select rows as usual. -/
def getSubsetBoolMask (es : EmitterSet) (m : List Bool) : Except EmErr EmitterSet :=
  if m.length = 1 then
    getSubsetList es [if m.getD 0 false then (1 : ℤ) else 0]
  else do
    let xyz ← maskSelect es.xyz m
    let phot ← maskSelect es.phot m
    let frame ← maskSelect es.frame_ix m
    let idv ← maskSelect es.id m
    let prob ← maskSelect es.prob m
    let bg ← maskSelect es.bg m
    let xcr ← maskSelect es.xyz_cr m
    let pcr ← maskSelect es.phot_cr m
    let bcr ← maskSelect es.bg_cr m
    mkEmitterSet xyz phot frame (some idv) (some prob) (some bg) (some xcr)
      (some pcr) (some bcr) false es.xy_unit es.px_size

/-- `EmitterSet.get_subset_frame` (lines 560-580): mask the emitters whose
frame index lies in the inclusive range, subset by the mask, and — when
`shift_to` is truthy — touch `em.num_emitter`, a property that immediately
raises `DeprecationWarning` (line 166). -/
def getSubsetFrame (es : EmitterSet) (lo hi : ℤ) (shiftTo : Bool) :
    Except EmErr EmitterSet := do
  let m := es.frame_ix.map (fun f => decide (lo ≤ f) && decide (f ≤ hi))
  let em ← getSubsetBoolMask es m
  if ¬ shiftTo then return em
  else .error .deprecation

/-- First element of a list of optionals that is set, if any (the rule `cat`
uses for the unit and the pixel size). -/
def firstSome {α : Type} (l : List (Option α)) : Option α :=
  (l.filterMap (fun x => x)).head?

/-- `EmitterSet.cat` (lines 451-504) with default shift arguments: the
default shift is a zero tensor, so frame indices are concatenated unchanged;
all row-aligned attributes are concatenated in input order; unit and pixel
size are taken from the first input that has them set; the result is built
through the constructor with `sanity_check=True`.  `torch.cat` of an empty
list raises. -/
def catEm (ems : List EmitterSet) : Except EmErr EmitterSet :=
  if ems.isEmpty then .error .emptyCat
  else
    mkEmitterSet ((ems.map (fun e => e.xyz)).flatten)
      ((ems.map (fun e => e.phot)).flatten)
      ((ems.map (fun e => e.frame_ix)).flatten)
      (some ((ems.map (fun e => e.id)).flatten))
      (some ((ems.map (fun e => e.prob)).flatten))
      (some ((ems.map (fun e => e.bg)).flatten))
      (some ((ems.map (fun e => e.xyz_cr)).flatten))
      (some ((ems.map (fun e => e.phot_cr)).flatten))
      (some ((ems.map (fun e => e.bg_cr)).flatten))
      true
      (firstSome (ems.map (fun e => e.xy_unit)))
      (firstSome (ems.map (fun e => e.px_size)))

/-- The 2-component-factor extension of `_convert_coordinates` (line 627): a
factor of length 2 gets a unit scale appended for the z axis. -/
def pxExtend (f : List Fl) : List Fl :=
  if f.length = 2 then f ++ [Fl.q 1] else f

/-- `EmitterSet._convert_coordinates` (lines 610-636) on the factor-only
path taken by `xyz_px` / `xyz_nm` (`shift` and `axis` default to `None`):
extend a 2-component factor, then multiply every row elementwise. -/
def convertCoords (xyz : List (List Fl)) (factor : List Fl) : List (List Fl) :=
  xyz.map (fun r => List.zipWith Fl.mul r (pxExtend factor))

/-- `EmitterSet.xyz_px` (lines 168-181): unset unit warns and returns
`None`; unit nm converts with factor `1 / px_size` (raising when the pixel
size is unset); unit px returns the raw array; an unrecognized unit falls
through all branches and implicitly returns `None`. -/
def xyzPx (es : EmitterSet) : Except EmErr (Option (List (List Fl))) :=
  match es.xy_unit with
  | none => .ok none
  | some XYUnit.nm =>
    match es.px_size with
    | none => .error .valueError
    | some p => .ok (some (convertCoords es.xyz (p.map Fl.recip)))
  | some XYUnit.px => .ok (some es.xyz)
  | some XYUnit.bogus => .ok none

/-- `EmitterSet.xyz_nm` (lines 188-201): mirror image of `xyz_px`, with
factor `px_size`. -/
def xyzNm (es : EmitterSet) : Except EmErr (Option (List (List Fl))) :=
  match es.xy_unit with
  | none => .ok none
  | some XYUnit.px =>
    match es.px_size with
    | none => .error .valueError
    | some p => .ok (some (convertCoords es.xyz p))
  | some XYUnit.nm => .ok (some es.xyz)
  | some XYUnit.bogus => .ok none

/-- One continuous-time emitter of a `LooseEmitterSet` (lines 866-907):
coordinates, photon flux, identity, blink start and on-time. -/
structure LooseEmitter where
  xyz : List ℚ
  intensity : ℚ
  t0 : ℚ
  ontime : ℚ
  id : ℤ
deriving DecidableEq

/-- End time `te = t0 + ontime` (line 905). -/
def LooseEmitter.te (e : LooseEmitter) : ℚ := e.t0 + e.ontime

/-- `frame_start = floor(t0)` (line 920). -/
def frameStart (e : LooseEmitter) : ℤ := ⌊e.t0⌋

/-- `frame_dur = ceil(te) - floor(t0)` (lines 920-922). -/
def frameDur (e : LooseEmitter) : ℤ := ⌈e.te⌉ - ⌊e.t0⌋

/-- One output row of `_distribute_framewise`. -/
structure FrameRow where
  xyz : List ℚ
  phot : ℚ
  frame : ℤ
  id : ℤ
deriving DecidableEq

/-- The row `_distribute_framewise` writes for emitter `e` on frame `f`
(lines 934-940): position and identity copied, photon count the overlap of
`[t0, te]` with `[f, f+1)` times the intensity. -/
def rowAt (e : LooseEmitter) (f : ℤ) : FrameRow :=
  { xyz := e.xyz,
    phot := (min e.te ((f : ℚ) + 1) - max e.t0 (f : ℚ)) * e.intensity,
    frame := f, id := e.id }

/-- The inner loop of `_distribute_framewise` for one emitter (lines
933-942): one row for each `j < frame_dur`, on frame `frame_start + j`. -/
def emitterRows (e : LooseEmitter) : List FrameRow :=
  (List.range (frameDur e).toNat).map
    (fun j : ℕ => rowAt e (frameStart e + (j : ℤ)))

/-- `LooseEmitterSet._distribute_framewise` (lines 909-944): the rows of all
emitters, emitter-major, frames ascending within an emitter. -/
def distribute_framewise (es : List LooseEmitter) : List FrameRow :=
  es.flatMap emitterRows

/-- The integer interval `[a, b)` as a list. -/
def intRange (a b : ℤ) : List ℤ :=
  (List.range (b - a).toNat).map (fun k : ℕ => a + (k : ℤ))

/-- The rows the claim asserts for one emitter: exactly one row per integer
frame `f` in `[floor t0, ceil te)`, with the overlap formula for photons and
position/identity copied. -/
def claimRowsC1 (e : LooseEmitter) : List FrameRow :=
  (intRange ⌊e.t0⌋ ⌈e.te⌉).map (rowAt e)

/-- Well-formedness of a container: the alignment invariant the spec states
(all N-length attributes share the leading dimension of `xyz`, both
coordinate arrays have 3 columns) plus a supported-or-unset unit. -/
def wfB (es : EmitterSet) : Bool :=
  (es.phot.length = lenEm es) && (es.frame_ix.length = lenEm es) &&
  (es.id.length = lenEm es) && (es.prob.length = lenEm es) &&
  (es.bg.length = lenEm es) && (es.xyz_cr.length = lenEm es) &&
  (es.phot_cr.length = lenEm es) && (es.bg_cr.length = lenEm es) &&
  es.xyz.all (fun r => r.length = 3) && es.xyz_cr.all (fun r => r.length = 3) &&
  (es.xy_unit = none || es.xy_unit = some XYUnit.px || es.xy_unit = some XYUnit.nm)

/-- The single-row container `__getitem__` returns for row `k`: every
attribute restricted to its `k`-th entry, unit and pixel size copied. -/
def rowOf (es : EmitterSet) (k : ℕ) : EmitterSet :=
  { xyz := (es.xyz.get? k).toList, phot := (es.phot.get? k).toList,
    frame_ix := (es.frame_ix.get? k).toList, id := (es.id.get? k).toList,
    prob := (es.prob.get? k).toList, bg := (es.bg.get? k).toList,
    xyz_cr := (es.xyz_cr.get? k).toList, phot_cr := (es.phot_cr.get? k).toList,
    bg_cr := (es.bg_cr.get? k).toList,
    xy_unit := es.xy_unit, px_size := es.px_size }

/-- A container with populated background and populated position
uncertainty, paired below with `c2b` which differs only in `xyz_cr`. -/
def c2a : EmitterSet :=
  { xyz := [[Fl.q 0, Fl.q 0, Fl.q 0]], phot := [Fl.q 1], frame_ix := [0],
    id := [-1], prob := [Fl.q 1], bg := [Fl.q 0],
    xyz_cr := [[Fl.q 0, Fl.q 0, Fl.q 0]], phot_cr := [Fl.nan],
    bg_cr := [Fl.nan], xy_unit := some XYUnit.px, px_size := none }

/-- Same as `c2a` except the position uncertainty differs by 9. -/
def c2b : EmitterSet :=
  { c2a with xyz_cr := [[Fl.q 9, Fl.q 9, Fl.q 9]] }

/-- C2, status code_bug: `c2a == c2b` returns True although their position
uncertainties are populated (not all NaN) and far apart — the not-all-NaN
branch of `__eq__` compares `self.bg` against `other.bg` instead of
`xyz_cr` (line 344), so the difference is never examined.  The claim (and
the method's own doc string) requires each field to be compared against its
own counterpart, which would return False here. -/
theorem c2_eq_compares_bg_for_cr_fields :
    eqEm c2a c2b = .ok true ∧ almeqM c2a.xyz_cr c2b.xyz_cr = .ok false := by
  constructor <;>
    norm_num [eqEm, eqCore, eq_attr, almeqM, almeqV, almeqZ, allNanV, allNanM,
      flClose, Fl.sub, Fl.abs, Fl.lt, Fl.isNan, flEq, tensorEqAll, c2a, c2b,
      eqPrecision, Except.bind, bind, pure, Except.pure]

/-- The container the constructor produces for the C3 failing input: one
emitter, but a probability array of length 2. -/
def es3bad : EmitterSet :=
  { xyz := [[Fl.q 0, Fl.q 0, Fl.q 0]], phot := [Fl.q 1], frame_ix := [0],
    id := [-1], prob := [Fl.q 1, Fl.q 1], bg := [Fl.nan],
    xyz_cr := [[Fl.nan, Fl.nan, Fl.nan]], phot_cr := [Fl.nan],
    bg_cr := [Fl.nan], xy_unit := some XYUnit.px, px_size := none }

/-- C3, status code_bug: constructing with `sanity_check=True` and a
probability array of the wrong length succeeds — `_sanity_check` calls
`same_shape_tensor` without `prob` (line 258) although its error message
names prob — so a validated container can violate the alignment
invariant. -/
theorem c3_sanity_skips_prob :
    mkEmitterSet [[Fl.q 0, Fl.q 0, Fl.q 0]] [Fl.q 1] [0] none
        (some [Fl.q 1, Fl.q 1]) none none none none true (some XYUnit.px) none
      = .ok es3bad ∧ es3bad.prob.length ≠ lenEm es3bad := by
  constructor
  · norm_num [mkEmitterSet, padXyz, sanityCheck, same_shape0, lenEm, es3bad,
      Except.map, Option.getD, List.replicate]
  · norm_num [es3bad, lenEm]

/-- A one-emitter container whose single emitter sits on frame 5. -/
def es7 : EmitterSet :=
  { xyz := [[Fl.q 1, Fl.q 1, Fl.q 1]], phot := [Fl.q 1], frame_ix := [5],
    id := [0], prob := [Fl.q 1], bg := [Fl.nan],
    xyz_cr := [[Fl.nan, Fl.nan, Fl.nan]], phot_cr := [Fl.nan],
    bg_cr := [Fl.nan], xy_unit := some XYUnit.px, px_size := none }

/-- A two-emitter container on frames 5 and 6. -/
def es7b : EmitterSet :=
  { xyz := [[Fl.q 1, Fl.q 1, Fl.q 1], [Fl.q 2, Fl.q 2, Fl.q 2]],
    phot := [Fl.q 1, Fl.q 1], frame_ix := [5, 6], id := [0, 1],
    prob := [Fl.q 1, Fl.q 1], bg := [Fl.nan, Fl.nan],
    xyz_cr := [[Fl.nan, Fl.nan, Fl.nan], [Fl.nan, Fl.nan, Fl.nan]],
    phot_cr := [Fl.nan, Fl.nan], bg_cr := [Fl.nan, Fl.nan],
    xy_unit := some XYUnit.px, px_size := none }

/-- The canonical empty container with unit px. -/
def es7empty : EmitterSet :=
  { xyz := [], phot := [], frame_ix := [], id := [], prob := [], bg := [],
    xyz_cr := [], phot_cr := [], bg_cr := [],
    xy_unit := some XYUnit.px, px_size := none }

/-- C7, status code_bug: on a one-emitter container the frame-range mask has
one element, so `get_subset`'s `numel() == 1` branch coerces it to the
integer index `int(mask)`.  An out-of-range emitter (frame 5, range [0,3])
is therefore returned anyway (mask `[False]` becomes row index 0); an
in-range emitter raises torch's IndexError (mask `[True]` becomes row index
1); and any truthy `shift_to` raises `DeprecationWarning` even for an empty
selection, because the `num_emitter` property raises on access. -/
theorem c7_subset_frame_single_bug :
    getSubsetFrame es7 0 3 false = .ok es7
    ∧ getSubsetFrame es7 4 6 false = .error (.boundsTorch 1 1)
    ∧ getSubsetFrame es7b 0 3 true = .error .deprecation := by
  refine ⟨?_, ?_, ?_⟩ <;>
    norm_num [getSubsetFrame, getSubsetBoolMask, getSubsetList, maskSelect,
      torchSelect, torchIndex, mkEmitterSet, padXyz, es7, es7b, es7empty,
      Except.bind, bind, pure, Except.pure, Option.getD, List.getD]

/-- A container with unit px and no pixel size. -/
def c8a : EmitterSet := { es7 with xy_unit := some XYUnit.px }

/-- `c8a` with the unit changed to nm; the pixel size stays unset. -/
def c8b : EmitterSet := { es7 with xy_unit := some XYUnit.nm }

/-- C8 counterexample: with both pixel sizes unset, `eq_attr` returns True
before ever looking at the units, although the units differ — the claim
would require False here. -/
theorem c8_eq_attr_counterexample :
    eq_attr c8a c8b = .ok true ∧ c8a.xy_unit ≠ c8b.xy_unit := by
  constructor
  · norm_num [eq_attr, c8a, c8b, es7]
  · norm_num [c8a, c8b, es7]
    decide

/-- A pair of equal one-emitter containers with pixel size unset. -/
def c10a : EmitterSet := es7

/-- `c10a` with a pixel size set. -/
def c10ap : EmitterSet := { es7 with px_size := some [Fl.q 1] }

/-- C10 counterexample: `c10a == es7` returns True, but after changing only
the pixel size of the left operand the comparison raises instead (the final
`eq_attr` call compares the set pixel size against `None`), so the outcome
of `__eq__` does depend on `px_size`. -/
theorem c10_eq_px_dependence_counterexample :
    eqEm c10a es7 = .ok true ∧ eqEm c10ap es7 = .error .noneCompare := by
  constructor <;>
    norm_num [eqEm, eqCore, eq_attr, almeqM, almeqV, almeqZ, allNanV, allNanM,
      flClose, Fl.sub, Fl.abs, Fl.lt, Fl.isNan, flEq, tensorEqAll, c10a, c10ap,
      es7, eqPrecision, Except.bind, bind, pure, Except.pure]

/-- A container whose position uncertainty is populated while the background
is all-NaN — the combination on which `__eq__` is not reflexive. -/
def c6bad : EmitterSet :=
  { es7 with xyz_cr := [[Fl.q 0, Fl.q 0, Fl.q 0]] }

/-- C6 counterexample: `cat([c6bad])` reproduces `c6bad` exactly, yet
`c6bad == c6bad` is False — the populated `xyz_cr` sends `__eq__` into the
branch that compares the all-NaN `bg` within tolerance — so
`cat([c]) == c` fails for this container. -/
theorem c6_cat_singleton_counterexample :
    catEm [c6bad] = .ok c6bad ∧ eqEm c6bad c6bad = .ok false := by
  constructor
  · norm_num [catEm, mkEmitterSet, padXyz, sanityCheck, same_shape0, lenEm,
      firstSome, c6bad, es7, Except.map, Option.getD]
  · norm_num [eqEm, eqCore, eq_attr, almeqM, almeqV, almeqZ, allNanV, allNanM,
      flClose, Fl.sub, Fl.abs, Fl.lt, Fl.isNan, flEq, tensorEqAll, c6bad, es7,
      eqPrecision, Except.bind, bind, pure, Except.pure]

/-- If `__eq__` returns a Boolean, it is the Boolean of the attribute
checks: the discarded `eq_attr` call can only turn the result into an
exception, never flip it. -/
theorem eqEm_ok_eqCore {x y : EmitterSet} {v : Bool}
    (h : eqEm x y = .ok v) : eqCore x y = .ok v := by
  unfold eqEm at h
  cases hc : eqCore x y with
  | error e => rw [hc] at h; simp [Except.bind, bind] at h
  | ok r =>
    rw [hc] at h
    cases r with
    | false =>
      simp only [Bool.false_eq_true, if_false, Except.bind, bind, pure,
        Except.pure, Except.ok.injEq] at h
      rw [← h]
    | true =>
      cases ha : eq_attr x y with
      | error e =>
        rw [ha] at h
        simp [Except.bind, bind, pure, Except.pure] at h
      | ok u =>
        rw [ha] at h
        simp only [if_true, Except.bind, bind, pure, Except.pure,
          Except.ok.injEq] at h
        rw [← h]

/-- The attribute checks never read the pixel size. -/
theorem eqCore_px (a b : EmitterSet) (p r : Option (List Fl)) :
    eqCore { a with px_size := p } { b with px_size := r } = eqCore a b := rfl

/-- C10, amended: whenever two `__eq__` comparisons of the same containers
under any pixel-size settings both return a Boolean, the Booleans agree —
the value of `__eq__` never depends on `px_size` because `eq_attr`'s return
value is discarded.  (`px_size` can still decide between returning and
raising, as the counterexample shows.) -/
theorem c10_eq_boolean_px_independent (a b : EmitterSet)
    (p1 p2 q1 q2 : Option (List Fl)) (v w : Bool)
    (h1 : eqEm { a with px_size := p1 } { b with px_size := p2 } = .ok v)
    (h2 : eqEm { a with px_size := q1 } { b with px_size := q2 } = .ok w) :
    v = w := by
  have hv := eqEm_ok_eqCore h1
  have hw := eqEm_ok_eqCore h2
  rw [eqCore_px] at hv hw
  rw [hv] at hw
  exact (Except.ok.injEq _ _).mp hw

/-- Witness for C10: both comparisons of the counterexample pair with the
pixel size left unset return True, and the theorem applies. -/
theorem c10_eq_boolean_px_independent_witness :
    eqEm { c10a with px_size := none } { es7 with px_size := none } = .ok true
    ∧ (true : Bool) = true := by
  constructor
  · norm_num [eqEm, eqCore, eq_attr, almeqM, almeqV, almeqZ, allNanV, allNanM,
      flClose, Fl.sub, Fl.abs, Fl.lt, Fl.isNan, flEq, tensorEqAll, c10a, es7,
      eqPrecision, Except.bind, bind, pure, Except.pure]
  · exact c10_eq_boolean_px_independent c10a es7 none none none none true true
      (by norm_num [eqEm, eqCore, eq_attr, almeqM, almeqV, almeqZ, allNanV,
        allNanM, flClose, Fl.sub, Fl.abs, Fl.lt, Fl.isNan, flEq, tensorEqAll,
        c10a, es7, eqPrecision, Except.bind, bind, pure, Except.pure])
      (by norm_num [eqEm, eqCore, eq_attr, almeqM, almeqV, almeqZ, allNanV,
        allNanM, flClose, Fl.sub, Fl.abs, Fl.lt, Fl.isNan, flEq, tensorEqAll,
        c10a, es7, eqPrecision, Except.bind, bind, pure, Except.pure])

/-- C8, amended: `eq_attr` returns True iff the pixel sizes match, and —
only when the receiver's pixel size is set — the units also match.  With
both pixel sizes unset it returns True without examining the units, and
with only the receiver's pixel size set it raises instead of returning
False. -/
theorem c8_eq_attr_cases (a b : EmitterSet) :
    (a.px_size = none → b.px_size = none → eq_attr a b = .ok true)
    ∧ (∀ r, a.px_size = none → b.px_size = some r → eq_attr a b = .ok false)
    ∧ (∀ p, a.px_size = some p → b.px_size = none →
        eq_attr a b = .error .noneCompare)
    ∧ (∀ p r, a.px_size = some p → b.px_size = some r → p.length = r.length →
        eq_attr a b
          = .ok (((p.zip r).all fun s => flEq s.1 s.2)
              && decide (a.xy_unit = b.xy_unit))) := by
  refine ⟨?_, ?_, ?_, ?_⟩
  · intro ha hb; simp [eq_attr, ha, hb]
  · intro r ha hb; simp [eq_attr, ha, hb]
  · intro p ha hb; simp [eq_attr, ha, hb]
  · intro p r ha hb hlen
    simp only [eq_attr, ha, hb, tensorEqAll, hlen, if_pos, Except.bind, bind,
      pure, Except.pure, ite_true]
    cases he : (p.zip r).all fun s => flEq s.1 s.2 with
    | false => simp
    | true =>
      by_cases hu : a.xy_unit = b.xy_unit <;> simp [hu]

/-- Witness for C8: the both-unset case applied to a concrete container. -/
theorem c8_eq_attr_cases_witness : eq_attr es7 es7 = .ok true :=
  (c8_eq_attr_cases es7 es7).1 rfl rfl

/-- Multiplying by a reciprocal is division, for nonzero rational values. -/
theorem flMul_recip (x y : Fl) (hy : flNonzeroRat y = true) :
    Fl.mul x (Fl.recip y) = Fl.div x y := by
  cases y with
  | nan => simp [flNonzeroRat] at hy
  | q b =>
    cases x with
    | nan => rfl
    | q a => simp [Fl.mul, Fl.recip, Fl.div, div_eq_mul_inv]

/-- The z-axis extension commutes with elementwise reciprocal, because the
reciprocal of the appended unit factor is 1. -/
theorem pxExtend_map_recip (p : List Fl) :
    pxExtend (p.map Fl.recip) = (pxExtend p).map Fl.recip := by
  unfold pxExtend
  rw [List.length_map]
  by_cases h : p.length = 2 <;> simp [h, Fl.recip]

/-- Every entry of an extended factor is a nonzero rational if the factor's
entries are. -/
theorem pxExtend_nonzero (p : List Fl) (hp : ∀ y ∈ p, flNonzeroRat y = true) :
    ∀ y ∈ pxExtend p, flNonzeroRat y = true := by
  intro y hy
  unfold pxExtend at hy
  split at hy
  · rcases List.mem_append.mp hy with h | h
    · exact hp _ h
    · simp only [List.mem_singleton] at h
      subst h
      simp [flNonzeroRat]
  · exact hp _ hy

/-- Rowwise: multiplying by reciprocals equals dividing, entry by entry. -/
theorem zipWith_mul_recip (r f : List Fl)
    (hf : ∀ y ∈ f, flNonzeroRat y = true) :
    List.zipWith Fl.mul r (f.map Fl.recip) = List.zipWith Fl.div r f := by
  induction f generalizing r with
  | nil => simp
  | cons y ys ih =>
    cases r with
    | nil => simp
    | cons x xs =>
      simp only [List.map_cons, List.zipWith_cons_cons]
      rw [flMul_recip x y (hf y (by simp)), ih xs (fun z hz => hf z (by simp [hz]))]

/-- C5, confirmed: the unit-aware accessors.  Unset unit returns a null
result without error for both accessors; a matching unit returns the raw
array; a needed conversion without pixel size raises; otherwise `xyz_px`
divides elementwise by the pixel size and `xyz_nm` multiplies by it, a
2-component pixel size being extended by a unit factor on the z axis.  The
nonzero hypothesis on the pixel size excludes infinities, which the float
model does not represent; the length hypothesis keeps the elementwise
product within torch's broadcast rules. -/
theorem c5_unit_accessor_cases (es : EmitterSet) :
    (es.xy_unit = none → xyzPx es = .ok none ∧ xyzNm es = .ok none)
    ∧ (es.xy_unit = some XYUnit.px → xyzPx es = .ok (some es.xyz))
    ∧ (es.xy_unit = some XYUnit.nm → xyzNm es = .ok (some es.xyz))
    ∧ (es.xy_unit = some XYUnit.nm → es.px_size = none →
        xyzPx es = .error .valueError)
    ∧ (es.xy_unit = some XYUnit.px → es.px_size = none →
        xyzNm es = .error .valueError)
    ∧ (∀ p, es.xy_unit = some XYUnit.nm → es.px_size = some p →
        (p.length = 2 ∨ p.length = 3) → (∀ y ∈ p, flNonzeroRat y = true) →
        xyzPx es
          = .ok (some (es.xyz.map fun r => List.zipWith Fl.div r (pxExtend p))))
    ∧ (∀ p, es.xy_unit = some XYUnit.px → es.px_size = some p →
        (p.length = 2 ∨ p.length = 3) →
        xyzNm es
          = .ok (some (es.xyz.map fun r => List.zipWith Fl.mul r (pxExtend p)))) := by
  refine ⟨?_, ?_, ?_, ?_, ?_, ?_, ?_⟩
  · intro h; exact ⟨by simp [xyzPx, h], by simp [xyzNm, h]⟩
  · intro h; simp [xyzPx, h]
  · intro h; simp [xyzNm, h]
  · intro h hp; simp [xyzPx, h, hp]
  · intro h hp; simp [xyzNm, h, hp]
  · intro p h hp _hlen hnz
    simp only [xyzPx, h, hp, convertCoords, pxExtend_map_recip]
    have hrow : ∀ r, List.zipWith Fl.mul r ((pxExtend p).map Fl.recip)
        = List.zipWith Fl.div r (pxExtend p) :=
      fun r => zipWith_mul_recip r (pxExtend p) (pxExtend_nonzero p hnz)
    simp [hrow]
  · intro p h hp _hlen
    simp [xyzNm, h, hp, convertCoords]

/-- The concrete container for the C5 witness: unit nm, pixel size (2, 4),
one coordinate row. -/
def c5w : EmitterSet :=
  { es7 with
    xyz := [[Fl.q 2, Fl.q 4, Fl.q 6]],
    xy_unit := some XYUnit.nm,
    px_size := some [Fl.q 2, Fl.q 4] }

/-- Witness for C5: the division case applied to `c5w`. -/
theorem c5_unit_accessor_cases_witness :
    xyzPx c5w
      = .ok (some (c5w.xyz.map fun r =>
          List.zipWith Fl.div r (pxExtend [Fl.q 2, Fl.q 4]))) :=
  (c5_unit_accessor_cases c5w).2.2.2.2.2.1 [Fl.q 2, Fl.q 4] rfl rfl
    (by norm_num) (by norm_num [flNonzeroRat])

/-- Unpacked form of the well-formedness predicate. -/
theorem wfB_spec (es : EmitterSet) (h : wfB es = true) :
    es.phot.length = lenEm es ∧ es.frame_ix.length = lenEm es
    ∧ es.id.length = lenEm es ∧ es.prob.length = lenEm es
    ∧ es.bg.length = lenEm es ∧ es.xyz_cr.length = lenEm es
    ∧ es.phot_cr.length = lenEm es ∧ es.bg_cr.length = lenEm es
    ∧ (∀ r ∈ es.xyz, r.length = 3) ∧ (∀ r ∈ es.xyz_cr, r.length = 3)
    ∧ (es.xy_unit = none ∨ es.xy_unit = some XYUnit.px
        ∨ es.xy_unit = some XYUnit.nm) := by
  simp only [wfB, Bool.and_eq_true, Bool.or_eq_true, decide_eq_true_eq,
    List.all_eq_true] at h
  tauto

/-- Padding is the identity on a tensor that already has 3 columns. -/
theorem padXyz_id (xs : List (List Fl)) (h : ∀ r ∈ xs, r.length = 3) :
    padXyz xs = xs := by
  cases xs with
  | nil => rfl
  | cons r t =>
    have hr : r.length = 3 := h r (by simp)
    simp [padXyz, hr]

/-- Selecting a single nonnegative in-range index. -/
theorem torchSelect_single_nonneg {α : Type} (xs : List α) (i : ℤ)
    (h0 : 0 ≤ i) (h1 : i.toNat < xs.length) :
    torchSelect xs [i] = .ok (xs.get? i.toNat).toList := by
  obtain ⟨a, ha⟩ : ∃ a, xs.get? i.toNat = some a :=
    ⟨xs.get ⟨i.toNat, h1⟩, List.get?_eq_get h1⟩
  have hneg : ¬ i < 0 := by omega
  rw [List.get?_eq_getElem?] at ha
  simp [torchSelect, torchIndex, hneg, h0, ha, Except.bind, bind,
    List.get?_eq_getElem?]

/-- Selecting a single negative in-range index resolves to row `len + i`. -/
theorem torchSelect_single_neg {α : Type} (xs : List α) (i : ℤ)
    (h0 : i < 0) (h1 : -(xs.length : ℤ) ≤ i) :
    torchSelect xs [i] = .ok (xs.get? ((xs.length : ℤ) + i).toNat).toList := by
  have hk : ((xs.length : ℤ) + i).toNat < xs.length := by omega
  obtain ⟨a, ha⟩ : ∃ a, xs.get? ((xs.length : ℤ) + i).toNat = some a :=
    ⟨xs.get ⟨_, hk⟩, List.get?_eq_get hk⟩
  have hj : (0 : ℤ) ≤ (xs.length : ℤ) + i := by omega
  rw [List.get?_eq_getElem?] at ha
  simp [torchSelect, torchIndex, h0, hj, ha, Except.bind, bind,
    List.get?_eq_getElem?]

/-- Selecting a single out-of-range index raises torch's IndexError. -/
theorem torchSelect_single_oob {α : Type} (xs : List α) (i : ℤ)
    (h : i < -(xs.length : ℤ)) :
    torchSelect xs [i] = .error (.boundsTorch i xs.length) := by
  have h0 : i < 0 := by omega
  have hj : ¬ (0 : ℤ) ≤ (xs.length : ℤ) + i := by omega
  simp [torchSelect, torchIndex, h0, hj, Except.bind, bind]

/-- Rows selected from a 3-column tensor have 3 columns. -/
theorem toList_row3 (es : EmitterSet) (k : ℕ)
    (hx3 : ∀ r ∈ es.xyz, r.length = 3) :
    ∀ r ∈ (es.xyz.get? k).toList, r.length = 3 := by
  intro r hr
  apply hx3
  cases hx : es.xyz.get? k with
  | none => rw [hx] at hr; simp at hr
  | some b =>
    rw [hx] at hr
    simp only [Option.toList_some, List.mem_singleton] at hr
    subst hr
    exact List.get?_mem hx

/-- C9, confirmed: integer indexing.  For `i >= len` the explicit
`IndexError` of `__getitem__` carries the index and the length; for
`i < -len` torch's `IndexError` does the same; every in-range index
(Python semantics: `-len <= i < len`) yields the single-row container for
that row. -/
theorem c9_getitem_range (es : EmitterSet) (i : ℤ) (h : wfB es = true) :
    ((lenEm es : ℤ) ≤ i → getItemInt es i = .error (.boundsPy i (lenEm es)))
    ∧ (i < -(lenEm es : ℤ) → getItemInt es i = .error (.boundsTorch i (lenEm es)))
    ∧ (0 ≤ i → i < (lenEm es : ℤ) →
        getItemInt es i = .ok (rowOf es i.toNat)
        ∧ lenEm (rowOf es i.toNat) = 1)
    ∧ (-(lenEm es : ℤ) ≤ i → i < 0 →
        getItemInt es i = .ok (rowOf es ((lenEm es : ℤ) + i).toNat)
        ∧ lenEm (rowOf es ((lenEm es : ℤ) + i).toNat) = 1) := by
  obtain ⟨hphot, hframe, hid, hprob, hbg, hxcr, hpcr, hbcr, hx3, _hxcr3, _hu⟩ :=
    wfB_spec es h
  have hlen : lenEm es = es.xyz.length := rfl
  refine ⟨?_, ?_, ?_, ?_⟩
  · intro hge
    simp [getItemInt, hge]
  · intro hlt
    have hne : ¬ ((lenEm es : ℤ) ≤ i) := by omega
    rw [getItemInt, if_neg hne, getSubsetList,
      torchSelect_single_oob es.xyz i (by rw [← hlen]; exact hlt)]
    simp [Except.bind, bind, hlen]
  · intro h0 h1
    have hne : ¬ ((lenEm es : ℤ) ≤ i) := by omega
    have hkx : i.toNat < es.xyz.length := by rw [← hlen]; omega
    have hk1 : i.toNat < es.phot.length := by rw [hphot]; omega
    have hk2 : i.toNat < es.frame_ix.length := by rw [hframe]; omega
    have hk3 : i.toNat < es.id.length := by rw [hid]; omega
    have hk4 : i.toNat < es.prob.length := by rw [hprob]; omega
    have hk5 : i.toNat < es.bg.length := by rw [hbg]; omega
    have hk6 : i.toNat < es.xyz_cr.length := by rw [hxcr]; omega
    have hk7 : i.toNat < es.phot_cr.length := by rw [hpcr]; omega
    have hk8 : i.toNat < es.bg_cr.length := by rw [hbcr]; omega
    obtain ⟨a, hax⟩ : ∃ a, es.xyz.get? i.toNat = some a :=
      ⟨es.xyz.get ⟨_, hkx⟩, List.get?_eq_get hkx⟩
    rw [List.get?_eq_getElem?] at hax
    constructor
    · rw [getItemInt, if_neg hne, getSubsetList,
        torchSelect_single_nonneg es.xyz i h0 hkx,
        torchSelect_single_nonneg es.phot i h0 hk1,
        torchSelect_single_nonneg es.frame_ix i h0 hk2,
        torchSelect_single_nonneg es.id i h0 hk3,
        torchSelect_single_nonneg es.prob i h0 hk4,
        torchSelect_single_nonneg es.bg i h0 hk5,
        torchSelect_single_nonneg es.xyz_cr i h0 hk6,
        torchSelect_single_nonneg es.phot_cr i h0 hk7,
        torchSelect_single_nonneg es.bg_cr i h0 hk8]
      simp only [Except.bind, bind]
      rw [mkEmitterSet, padXyz_id _ (toList_row3 es i.toNat hx3)]
      simp [rowOf, hax, Option.getD, List.get?_eq_getElem?]
    · simp [lenEm, rowOf, hax, List.get?_eq_getElem?]
  · intro hn h0
    have hne : ¬ ((lenEm es : ℤ) ≤ i) := by omega
    have hkx : ((lenEm es : ℤ) + i).toNat < es.xyz.length := by
      rw [← hlen]; omega
    have hk1 : ((lenEm es : ℤ) + i).toNat < es.phot.length := by
      rw [hphot]; omega
    have hk2 : ((lenEm es : ℤ) + i).toNat < es.frame_ix.length := by
      rw [hframe]; omega
    have hk3 : ((lenEm es : ℤ) + i).toNat < es.id.length := by rw [hid]; omega
    have hk4 : ((lenEm es : ℤ) + i).toNat < es.prob.length := by
      rw [hprob]; omega
    have hk5 : ((lenEm es : ℤ) + i).toNat < es.bg.length := by rw [hbg]; omega
    have hk6 : ((lenEm es : ℤ) + i).toNat < es.xyz_cr.length := by
      rw [hxcr]; omega
    have hk7 : ((lenEm es : ℤ) + i).toNat < es.phot_cr.length := by
      rw [hpcr]; omega
    have hk8 : ((lenEm es : ℤ) + i).toNat < es.bg_cr.length := by
      rw [hbcr]; omega
    obtain ⟨a, hax⟩ : ∃ a, es.xyz.get? ((lenEm es : ℤ) + i).toNat = some a :=
      ⟨es.xyz.get ⟨_, hkx⟩, List.get?_eq_get hkx⟩
    rw [List.get?_eq_getElem?] at hax
    simp only [lenEm] at hax
    have hsel : ∀ {α : Type} (xs : List α),
        xs.length = lenEm es →
        torchSelect xs [i] = .ok (xs.get? ((lenEm es : ℤ) + i).toNat).toList := by
      intro α xs hxs
      rw [torchSelect_single_neg xs i h0 (by rw [hxs]; exact hn), hxs]
    constructor
    · rw [getItemInt, if_neg hne, getSubsetList,
        hsel es.xyz hlen.symm, hsel es.phot hphot, hsel es.frame_ix hframe,
        hsel es.id hid, hsel es.prob hprob, hsel es.bg hbg,
        hsel es.xyz_cr hxcr, hsel es.phot_cr hpcr, hsel es.bg_cr hbcr]
      simp only [Except.bind, bind]
      rw [mkEmitterSet, padXyz_id _ (toList_row3 es _ hx3)]
      simp [rowOf, hax, Option.getD, List.get?_eq_getElem?, lenEm]
    · simp [lenEm, rowOf, hax, List.get?_eq_getElem?]

/-- Witness for C9: in-range and out-of-range indexing of a concrete
two-emitter container. -/
theorem c9_getitem_range_witness :
    getItemInt es7b 0 = .ok (rowOf es7b 0)
    ∧ getItemInt es7b 5 = .error (.boundsPy 5 2) := by
  constructor
  · exact (((c9_getitem_range es7b 0 (by norm_num [wfB, es7b, lenEm])).2.2.1)
      (by norm_num) (by norm_num [lenEm, es7b])).1
  · exact (c9_getitem_range es7b 5 (by norm_num [wfB, es7b, lenEm])).1
      (by norm_num [lenEm, es7b])

/-- The first-set rule on a single container reproduces its value. -/
theorem firstSome_single {α : Type} (o : Option α) : firstSome [o] = o := by
  cases o <;> rfl

/-- A well-formed container passes the sanity check. -/
theorem sanityCheck_wf (c : EmitterSet) (h : wfB c = true) :
    sanityCheck c = .ok () := by
  obtain ⟨hphot, hframe, hid, _hprob, hbg, hxcr, hpcr, hbcr, _hx3, _hxcr3, hu⟩ :=
    wfB_spec c h
  have hs : same_shape0 c = true := by
    simp [same_shape0, hphot, hframe, hid, hbg, hxcr, hpcr, hbcr, lenEm]
  rcases hu with hu | hu | hu <;> simp [sanityCheck, hs, hu]

/-- C6, amended: `cat([c])` with default shift arguments rebuilds `c`
exactly — every attribute, the unit and the pixel size are reproduced — so
comparing `cat([c])` against `c` with `__eq__` is the same comparison as
`c == c`.  The original claim (`cat([c]) == c` is True) holds exactly when
`__eq__` is reflexive at `c`, which the counterexample shows can fail. -/
theorem c6_cat_singleton_identity (c : EmitterSet) (h : wfB c = true) :
    catEm [c] = .ok c
    ∧ (catEm [c]).bind (fun d => eqEm d c) = eqEm c c := by
  obtain ⟨hphot, hframe, hid, hprob, hbg, hxcr, hpcr, hbcr, hx3, _hxcr3, _hu⟩ :=
    wfB_spec c h
  have hpad : padXyz c.xyz = c.xyz := padXyz_id _ hx3
  have hsan : sanityCheck c = .ok () := sanityCheck_wf c h
  have hcat : catEm [c] = .ok c := by
    rw [catEm]
    simp only [List.isEmpty_cons, Bool.false_eq_true, if_false, List.map_cons,
      List.map_nil, List.flatten_cons, List.flatten_nil, List.append_nil,
      firstSome_single]
    simp only [mkEmitterSet, hpad, if_true]
    by_cases hne : c.xyz.length ≠ 0
    · rw [if_pos hne]
      show Except.map (fun _ => c) (sanityCheck c) = Except.ok c
      rw [hsan]
      rfl
    · push_neg at hne
      rw [if_neg (fun hk => hk hne)]
      have hL : lenEm c = 0 := hne
      have hE : c =
          { xyz := [],
            phot := [],
            frame_ix := [],
            id := [],
            prob := [],
            bg := [],
            xyz_cr := [],
            phot_cr := [],
            bg_cr := [],
            xy_unit := c.xy_unit,
            px_size := c.px_size } := by
        ext1
        · exact List.length_eq_zero.mp hne
        · exact List.length_eq_zero.mp (by rw [hphot, hL])
        · exact List.length_eq_zero.mp (by rw [hframe, hL])
        · exact List.length_eq_zero.mp (by rw [hid, hL])
        · exact List.length_eq_zero.mp (by rw [hprob, hL])
        · exact List.length_eq_zero.mp (by rw [hbg, hL])
        · exact List.length_eq_zero.mp (by rw [hxcr, hL])
        · exact List.length_eq_zero.mp (by rw [hpcr, hL])
        · exact List.length_eq_zero.mp (by rw [hbcr, hL])
        · rfl
        · rfl
      rw [← hE, hsan]
      rfl
  refine ⟨hcat, ?_⟩
  rw [hcat]
  rfl

/-- Witness for C6: the identity applied to a concrete well-formed
container. -/
theorem c6_cat_singleton_identity_witness :
    catEm [es7b] = .ok es7b := by
  exact (c6_cat_singleton_identity es7b (by norm_num [wfB, es7b, lenEm])).1

/-- The source's inner loop enumerates exactly the claim's frame interval:
frame `frame_start + j` for `j < frame_dur` is the general element of
`[floor t0, ceil te)`. -/
theorem emitterRows_eq_claimRows (e : LooseEmitter) :
    emitterRows e = claimRowsC1 e := by
  simp [emitterRows, claimRowsC1, intRange, frameDur, frameStart, List.map_map,
    Function.comp]

/-- A nonnegative on-time yields a nonnegative frame count. -/
theorem frameDur_nonneg (e : LooseEmitter) (h : 0 ≤ e.ontime) :
    0 ≤ frameDur e := by
  have h1 : ⌊e.t0⌋ ≤ ⌈e.t0⌉ := Int.floor_le_ceil e.t0
  have h2 : ⌈e.t0⌉ ≤ ⌈e.te⌉ := by
    apply Int.ceil_le_ceil
    unfold LooseEmitter.te
    linarith
  unfold frameDur
  omega

/-- Membership in the integer interval list. -/
theorem mem_intRange (a b f : ℤ) : f ∈ intRange a b ↔ a ≤ f ∧ f < b := by
  simp only [intRange, List.mem_map, List.mem_range]
  constructor
  · rintro ⟨k, hk, rfl⟩
    omega
  · rintro ⟨h1, h2⟩
    exact ⟨(f - a).toNat, by omega, by omega⟩

/-- The interval list has no duplicates. -/
theorem nodup_intRange (a b : ℤ) : (intRange a b).Nodup := by
  apply List.Nodup.map
  · intro x y hxy
    simpa using hxy
  · exact List.nodup_range _

/-- The frames of the rows of one emitter are exactly the interval list. -/
theorem emitterRows_frames (e : LooseEmitter) :
    (emitterRows e).map FrameRow.frame = intRange ⌊e.t0⌋ ⌈e.te⌉ := by
  simp [emitterRows, intRange, frameDur, frameStart, List.map_map,
    Function.comp, rowAt]

/-- C1, confirmed (for nonnegative on-times, without which the source's
preallocation size would be negative): `_distribute_framewise` emits, for
each emitter, exactly one row per integer frame `f` in
`[floor t0, ceil(t0+ontime))` — position and identity copied, photon count
`(min(t0+ontime, f+1) - max(t0, f)) * intensity` — in emitter-major order
with frames ascending, and the total row count is the sum over emitters of
`ceil(t0+ontime) - floor(t0)`. -/
theorem c1_loose_lowering_rows (es : List LooseEmitter)
    (h : ∀ e ∈ es, 0 ≤ e.ontime) :
    distribute_framewise es = es.flatMap claimRowsC1
    ∧ ((distribute_framewise es).length : ℤ)
        = (es.map (fun e => ⌈e.te⌉ - ⌊e.t0⌋)).sum
    ∧ ∀ e ∈ es, ((emitterRows e).map FrameRow.frame).Nodup
        ∧ ∀ f : ℤ, (f ∈ (emitterRows e).map FrameRow.frame
            ↔ (⌊e.t0⌋ ≤ f ∧ f < ⌈e.te⌉))
        ∧ ∀ j, (hj : j < (emitterRows e).length) →
            (emitterRows e).get ⟨j, hj⟩ = rowAt e (⌊e.t0⌋ + (j : ℤ)) := by
  refine ⟨?_, ?_, ?_⟩
  · have hfe : emitterRows = claimRowsC1 := funext emitterRows_eq_claimRows
    unfold distribute_framewise
    rw [hfe]
  · induction es with
    | nil => simp [distribute_framewise]
    | cons e t ih =>
      have he : 0 ≤ e.ontime := h e (by simp)
      have ht : ∀ x ∈ t, 0 ≤ x.ontime := fun x hx => h x (by simp [hx])
      have hdur : ((emitterRows e).length : ℤ) = frameDur e := by
        simp only [emitterRows, List.length_map, List.length_range]
        exact Int.toNat_of_nonneg (frameDur_nonneg e he)
      simp only [distribute_framewise, List.flatMap_cons, List.length_append,
        List.map_cons, List.sum_cons, Nat.cast_add, hdur]
      rw [← distribute_framewise, ih ht]
      simp [frameDur]
  · intro e he
    refine ⟨?_, fun f => ⟨?_, ?_⟩⟩
    · rw [emitterRows_frames]
      exact nodup_intRange _ _
    · rw [emitterRows_frames]
      exact mem_intRange _ _ f
    · intro j hj
      simp [emitterRows, rowAt, frameStart]

/-- The concrete loose set for the C1 witness: one emitter, `t0 = 1/2`,
`ontime = 1`, intensity 100. -/
def c1w : List LooseEmitter :=
  [{ xyz := [0, 0, 0], intensity := 100, t0 := 1/2, ontime := 1, id := 7 }]

/-- Witness for C1: the on-time of the witness emitter is nonnegative and
the theorem applies to it. -/
theorem c1_loose_lowering_rows_witness :
    (∀ e ∈ c1w, 0 ≤ e.ontime)
    ∧ distribute_framewise c1w = c1w.flatMap claimRowsC1 := by
  have h : ∀ e ∈ c1w, 0 ≤ e.ontime := by
    intro e he
    simp only [c1w, List.mem_singleton] at he
    subst he
    norm_num
  exact ⟨h, (c1_loose_lowering_rows c1w h).1⟩
